import Mathlib

/-!
Verification of the duan_jandan crawl-extract-aggregate pipeline.

The Python source (src/duan/episode.py, src/util/file_generator.py,
src/util/mail_worker.py) is shallowly embedded below.  Python strings are
Lean `String`s; `str.split(c)` for a one-character separator is `pySplit c`
(it keeps empty pieces, exactly like Python); `str.replace(c, '')` for a
one-character pattern is `removeChar c`; `sep.join(xs)` is `pyJoin`;
`int(s)` is `pyInt?` (`none` models Python's `ValueError`).  A raised
Python exception is modelled as an error value that aborts the enclosing
computation, exactly as an uncaught exception aborts the Python run.
-/

/-- Character-list splitter underlying `pySplit`: splits on every occurrence
of `sep`, keeping empty pieces; on `[]` it yields `[[]]`, matching Python's
`''.split(c) == ['']`. -/
def splitChars (sep : Char) : List Char → List (List Char)
  | [] => [[]]
  | c :: cs =>
    match splitChars sep cs with
    | [] => [[]]
    | h :: t => if c = sep then [] :: h :: t else (c :: h) :: t

/-- Python `s.split(c)` for a single-character separator `c`. -/
def pySplit (sep : Char) (s : String) : List String :=
  (splitChars sep s.data).map String.mk

/-- Python `s.replace(c, '')` for a single-character pattern `c`:
removes every occurrence of `c`. -/
def removeChar (c : Char) (s : String) : String :=
  String.mk (s.data.filter (fun x => x ≠ c))

/-- `str.replace('[','').replace(']','')`, the bracket stripping used both
by `get_current_page` and by `reveal_details` (episode.py). -/
def stripBrackets (s : String) : String :=
  removeChar ']' (removeChar '[' s)

/-- Character-list joiner underlying `pyJoin`. -/
def pyJoinL (c : Char) : List (List Char) → List Char
  | [] => []
  | [p] => p
  | p :: q :: rest => p ++ c :: pyJoinL c (q :: rest)

/-- Python `c.join(xs)` for a one-character separator. -/
def pyJoin (c : Char) (xs : List String) : String :=
  String.mk (pyJoinL c (xs.map String.data))

/-- Value of a decimal digit character. -/
def digitsToNat (ds : List Char) : Nat :=
  ds.foldl (fun n c => n * 10 + (c.toNat - ('0').toNat)) 0

/-- Python `int(s)`: optional sign followed by at least one decimal digit;
anything else raises `ValueError`, modelled as `none`. -/
def pyInt? (s : String) : Option Int :=
  match s.data with
  | [] => none
  | '-' :: ds =>
    if ds ≠ [] ∧ ds.all Char.isDigit then some (-(digitsToNat ds : Int)) else none
  | '+' :: ds =>
    if ds ≠ [] ∧ ds.all Char.isDigit then some (digitsToNat ds : Int) else none
  | ds =>
    if ds.all Char.isDigit then some (digitsToNat ds : Int) else none

/-- The structured record built by `reveal_details` (episode.py line 81:
`duan_list = [id, author, duan_text, vote_like, vote_unlike]`); the field
order of this structure is the order of that Python list, so `id` is the
record's first field. -/
structure Entry where
  id : String
  author : String
  text : String
  likeCount : String
  unlikeCount : String
deriving DecidableEq

/-- Error kinds of the pipeline, named per the spec's taxonomy.
`extractionError` models the uncaught `IndexError` a malformed block causes
inside `reveal_details`; `pageLocatorError` models both the `IndexError` on
`page_block[0]` in `get_current_page` and the `ValueError` that
`int(current_page)` raises inside `loot`'s loop. -/
inductive Err where
  | pageLocatorError
  | extractionError
deriving DecidableEq

/-- Body of `reveal_details` (episode.py lines 59-82) on the already-split
line list.  Python list indexing `xs[i]` is `List.get? i` with `none`
aborting (IndexError); `xs[3:-1]` is `(xs.drop 3).dropLast` (Python slices
never raise); `xs[-1]` is `getLast?`.
For a list `l0 :: l1 :: l2 :: rest`, `text_pieces[0]`/`[2]` succeed exactly
when this 3-element pattern matches, `text_pieces[3:-1]` is `rest.dropLast`
and `text_pieces[-1]` is `rest.getLastD l2`; `votes_pieces[2]` /
`votes_pieces[4]` raise exactly when the vote line has fewer than 5
tokens (the IndexError's index does not affect the aborted outcome). -/
def extractLines : List String → Except Err Entry
  | l0 :: _ :: l2 :: rest =>
    let author := l0
    let id := l2
    let duan := rest.dropLast
    let duan_text := String.join duan
    let votes := rest.getLastD l2
    let votes_pieces := pySplit ' ' votes
    match votes_pieces.get? 2, votes_pieces.get? 4 with
    | some like_raw, some unlike_raw =>
      .ok { id := id, author := author, text := duan_text,
            likeCount := stripBrackets like_raw,
            unlikeCount := stripBrackets unlike_raw }
    | _, _ => .error .extractionError
  | _ => .error .extractionError

/-- `reveal_details` (episode.py lines 59-82): split the block's text on
newlines and extract the fixed-offset fields. -/
def reveal_details (text : String) : Except Err Entry :=
  extractLines (pySplit '\n' text)

/-- A fetched document, abstracting the parts of `requests_html`'s response
the pipeline reads: the texts of the `span.current-comment-page` matches
(`currentPageIndicators`) and the texts of the `ol.commentlist > li`
elements in document order (`entryBlocks`).  A fetch is a total function
`String → Document` (network failure is out of scope of the claims). -/
structure Document where
  currentPageIndicators : List String
  entryBlocks : List String
deriving DecidableEq

def BASE_URL : String := "http://jandan.net/duan/"

/-- `construct_url` (episode.py lines 32-34): `BASE_URL + f'page-{page}#comments'`. -/
def construct_url (page : Int) : String :=
  BASE_URL ++ "page-" ++ toString page ++ "#comments"

/-- `get_current_page` (episode.py lines 40-54): fetch the index, take the
first `span.current-comment-page` match (`page_block[0]`; an empty match
list is an uncaught IndexError, modelled as `pageLocatorError`), strip the
brackets from its text and return the resulting STRING — the integer parse
happens later, inside `loot`. -/
def get_current_page (fetch : String → Document) (url : String := BASE_URL) :
    Except Err String :=
  let r := fetch url
  let page_block := r.currentPageIndicators
  match page_block.get? 0 with
  | none => .error .pageLocatorError
  | some p =>
    let ptext := p
    let new_page := stripBrackets ptext
    .ok new_page

/-- The aggregate `duan_dict`: a Python dict from entry id to entry,
modelled as an insertion-ordered association list. -/
abbrev Aggregate := List (String × Entry)

/-- Python dict assignment `d[k] = v`: replace the binding in place when
the key is present, append a new binding otherwise. -/
def dictInsert : Aggregate → String → Entry → Aggregate
  | [], k, v => [(k, v)]
  | p :: ps, k, v => if p.1 = k then (k, v) :: ps else p :: dictInsert ps k v

/-- Python dict lookup `d[k]` / `k in d`. -/
def dictLookup (d : Aggregate) (k : String) : Option Entry :=
  (d.find? (fun p => p.1 = k)).map (fun p => p.2)

/-- The inner `for d in duan_block` loop of `loot` (episode.py lines
101-106): extract each block and store it under `temp[0]`, i.e. the
entry's id; an extraction failure is an uncaught exception aborting the
whole crawl. -/
def processBlocks (dict : Aggregate) : List String → Except Err Aggregate
  | [] => .ok dict
  | b :: bs =>
    match reveal_details b with
    | .error e => .error e
    | .ok entry => processBlocks (dictInsert dict entry.id entry) bs

/-- Result of a crawl together with the trace of page numbers actually
fetched (one entry per `loot_session.get(url)` call, in call order). -/
inductive LootOutcome where
  | ok (aggregate : Aggregate) (fetchedPages : List Int)
  | err (e : Err) (fetchedPages : List Int)
deriving DecidableEq

/-- The `for i in range(range_count)` loop of `loot` (episode.py lines
96-106).  `int(current_page)` is re-evaluated on every iteration, before
the page fetch, exactly as in the source; its failure (`pyInt? = none`)
aborts the crawl with a `pageLocatorError` before fetching. -/
def lootIter (fetch : String → Document) (current_page : String) (i : Nat)
    (dict : Aggregate) : Nat → LootOutcome
  | 0 => .ok dict []
  | fuel + 1 =>
    match pyInt? current_page with
    | none => .err .pageLocatorError []
    | some cp =>
      let page := cp - (i : Int)
      let url := construct_url page
      let r := fetch url
      let duan_block := r.entryBlocks
      match processBlocks dict duan_block with
      | .error e => .err e [page]
      | .ok dict' =>
        match lootIter fetch current_page (i + 1) dict' fuel with
        | .ok d t => .ok d (page :: t)
        | .err e t => .err e (page :: t)

/-- `loot` (episode.py lines 87-107): locate the current page, then crawl
`range_count` pages in descending page order, merging extracted entries
into the aggregate. -/
def loot (fetch : String → Document) (range_count : Nat := 10) : LootOutcome :=
  match get_current_page fetch BASE_URL with
  | .error e => .err e []
  | .ok current_page => lootIter fetch current_page 0 [] range_count

/- file_generator.py constants. -/
def TXT_NAME : String := "new_10.txt"
def MD_NAME : String := "new_10.md"
def HTML_NAME : String := "new_10.html"

/-- The per-entry value list `v = [id, author, duan_text, vote_like,
vote_unlike]` as stored in `duan_dict` and iterated by
`duan_write_txt`. -/
def entryFields (e : Entry) : List String :=
  [e.id, e.author, e.text, e.likeCount, e.unlikeCount]

/-- The row `duan_write_txt` (file_generator.py lines 30-36) emits for one
entry: `' '.join(v)` (the trailing newline is written separately). -/
def duanRow (e : Entry) : String :=
  pyJoin ' ' (entryFields e)

/-- Attachment file-name selection of `send_duan` (mail_worker.py lines
35-41): `txt` and `html` select their exports, everything else falls
through to the markdown name. -/
def send_duan_file_name (typet : String) : String :=
  if typet = "txt" then TXT_NAME
  else if typet = "html" then HTML_NAME
  else MD_NAME

/-! ### Helper lemmas about the string primitives -/

theorem splitChars_ne_nil (sep : Char) (cs : List Char) : splitChars sep cs ≠ [] := by
  cases cs with
  | nil => simp [splitChars]
  | cons c cs =>
    simp only [splitChars]
    cases h : splitChars sep cs with
    | nil => simp
    | cons h t =>
      by_cases hc : c = sep <;> simp [hc]

theorem pyJoinL_splitChars (sep : Char) (cs : List Char) :
    pyJoinL sep (splitChars sep cs) = cs := by
  induction cs with
  | nil => rfl
  | cons c cs ih =>
    simp only [splitChars]
    cases h : splitChars sep cs with
    | nil => exact absurd h (splitChars_ne_nil sep cs)
    | cons p t =>
      rw [h] at ih
      by_cases hc : c = sep
      · subst hc
        simp only [if_pos rfl]
        cases t with
        | nil => simpa [pyJoinL] using ih
        | cons q t' => simpa [pyJoinL] using ih
      · simp only [if_neg hc]
        cases t with
        | nil => simpa [pyJoinL] using ih
        | cons q t' => simpa [pyJoinL] using ih

theorem string_mk_data (s : String) : String.mk s.data = s := rfl

theorem pyJoin_pySplit (sep : Char) (s : String) :
    pyJoin sep (pySplit sep s) = s := by
  unfold pyJoin pySplit
  rw [List.map_map]
  have : (String.data ∘ String.mk) = id := rfl
  rw [this, List.map_id, pyJoinL_splitChars]

theorem splitChars_cons_eq (sep c : Char) (cs q : List Char) (t : List (List Char))
    (h : splitChars sep cs = q :: t) :
    splitChars sep (c :: cs) = if c = sep then [] :: q :: t else (c :: q) :: t := by
  simp only [splitChars, h]

theorem mem_splitChars_not_sep (sep : Char) (cs : List Char) :
    ∀ p ∈ splitChars sep cs, sep ∉ p := by
  induction cs with
  | nil => intro p hp; simp [splitChars] at hp; simp [hp]
  | cons c cs ih =>
    intro p hp
    cases h : splitChars sep cs with
    | nil => exact absurd h (splitChars_ne_nil sep cs)
    | cons q t =>
      rw [splitChars_cons_eq sep c cs q t h] at hp
      rw [h] at ih
      by_cases hc : c = sep
      · rw [if_pos hc] at hp
        rcases List.mem_cons.mp hp with hp | hp
        · simp [hp]
        · exact ih p hp
      · rw [if_neg hc] at hp
        rcases List.mem_cons.mp hp with hp | hp
        · subst hp
          intro hmem
          rcases List.mem_cons.mp hmem with h1 | h1
          · exact hc h1.symm
          · exact ih q (List.mem_cons_self _ _) h1
        · exact ih p (List.mem_cons_of_mem _ hp)

theorem mem_splitChars_subset (sep : Char) (cs : List Char) :
    ∀ p ∈ splitChars sep cs, ∀ x ∈ p, x ∈ cs := by
  induction cs with
  | nil => intro p hp x hx; simp [splitChars] at hp; subst hp; simp at hx
  | cons c cs ih =>
    intro p hp x hx
    cases h : splitChars sep cs with
    | nil => exact absurd h (splitChars_ne_nil sep cs)
    | cons q t =>
      rw [splitChars_cons_eq sep c cs q t h] at hp
      rw [h] at ih
      by_cases hc : c = sep
      · rw [if_pos hc] at hp
        rcases List.mem_cons.mp hp with hp | hp
        · subst hp; simp at hx
        · exact List.mem_cons_of_mem _ (ih p hp x hx)
      · rw [if_neg hc] at hp
        rcases List.mem_cons.mp hp with hp | hp
        · subst hp
          rcases List.mem_cons.mp hx with h1 | h1
          · simp [h1]
          · exact List.mem_cons_of_mem _ (ih q (List.mem_cons_self _ _) x h1)
        · exact List.mem_cons_of_mem _ (ih p (List.mem_cons_of_mem _ hp) x hx)

theorem mem_pySplit_not_sep (sep : Char) (s : String) :
    ∀ piece ∈ pySplit sep s, sep ∉ piece.data := by
  intro piece hp
  unfold pySplit at hp
  rcases List.mem_map.mp hp with ⟨cs, hcs, rfl⟩
  exact mem_splitChars_not_sep sep s.data cs hcs

theorem mem_pySplit_subset (sep : Char) (s : String) :
    ∀ piece ∈ pySplit sep s, ∀ x ∈ piece.data, x ∈ s.data := by
  intro piece hp
  unfold pySplit at hp
  rcases List.mem_map.mp hp with ⟨cs, hcs, rfl⟩
  exact mem_splitChars_subset sep s.data cs hcs

theorem mem_removeChar_subset (c : Char) (s : String) :
    ∀ x ∈ (removeChar c s).data, x ∈ s.data := by
  intro x hx
  unfold removeChar at hx
  exact List.mem_of_mem_filter hx

theorem mem_stripBrackets_subset (s : String) :
    ∀ x ∈ (stripBrackets s).data, x ∈ s.data := by
  intro x hx
  exact mem_removeChar_subset _ _ x (mem_removeChar_subset _ _ x hx)

theorem string_join_not_mem (c : Char) (l : List String)
    (h : ∀ s ∈ l, c ∉ s.data) : c ∉ (String.join l).data := by
  suffices H : ∀ acc : String, c ∉ acc.data →
      c ∉ (l.foldl (fun a b => a ++ b) acc).data by
    exact H "" (by simp [String.data])
  induction l with
  | nil => intro acc hacc; simpa using hacc
  | cons s l ih =>
    intro acc hacc
    simp only [List.foldl_cons]
    refine ih (fun t ht => h t (List.mem_cons_of_mem _ ht)) (acc ++ s) ?_
    intro hmem
    rw [String.data_append] at hmem
    rcases List.mem_append.mp hmem with h1 | h1
    · exact hacc h1
    · exact h s (List.mem_cons_self _ _) h1

/-! ### Helper lemmas about the aggregate dictionary -/

theorem dictLookup_cons (p : String × Entry) (ps : Aggregate) (k : String) :
    dictLookup (p :: ps) k = if p.1 = k then some p.2 else dictLookup ps k := by
  by_cases h : p.1 = k
  · simp [dictLookup, List.find?_cons_of_pos, h]
  · simp [dictLookup, List.find?_cons_of_neg, h]

theorem dictLookup_dictInsert (d : Aggregate) (k k' : String) (v : Entry) :
    dictLookup (dictInsert d k v) k' =
      if k' = k then some v else dictLookup d k' := by
  induction d with
  | nil =>
    by_cases h : k' = k
    · simp [dictInsert, dictLookup_cons, dictLookup, h]
    · simp [dictInsert, dictLookup_cons, dictLookup, h, Ne.symm h]
  | cons p ps ih =>
    by_cases hp : p.1 = k
    · simp only [dictInsert, if_pos hp, dictLookup_cons]
      by_cases h : k' = k
      · simp [h]
      · have hkk : ¬ k = k' := Ne.symm h
        have hpk : ¬ p.1 = k' := by rw [hp]; exact hkk
        simp [h, hkk, hpk]
    · simp only [dictInsert, if_neg hp, dictLookup_cons, ih]
      by_cases h : p.1 = k'
      · have hk : ¬ k' = k := fun hh => hp (h.trans hh)
        simp [h, hk]
      · simp [h]

theorem mem_dictInsert (d : Aggregate) (k : String) (v : Entry) :
    ∀ p ∈ dictInsert d k v, p = (k, v) ∨ p ∈ d := by
  induction d with
  | nil => intro p hp; simp [dictInsert] at hp; simp [hp]
  | cons q qs ih =>
    intro p hp
    simp only [dictInsert] at hp
    by_cases hq : q.1 = k
    · rw [if_pos hq] at hp
      rcases List.mem_cons.mp hp with h | h
      · exact Or.inl h
      · exact Or.inr (List.mem_cons_of_mem _ h)
    · rw [if_neg hq] at hp
      rcases List.mem_cons.mp hp with h | h
      · exact Or.inr (h ▸ List.mem_cons_self _ _)
      · rcases ih p h with h1 | h1
        · exact Or.inl h1
        · exact Or.inr (List.mem_cons_of_mem _ h1)

/-! ### Characterization of the extractor -/

theorem mem_of_getLast?_eq_some {l : List String} {a : String}
    (h : l.getLast? = some a) : a ∈ l := by
  rcases List.mem_getLast?_eq_getLast (l := l) (x := a) (by simp [h]) with ⟨hne, rfl⟩
  exact List.getLast_mem hne

/-- Success shape of the extractor: where each field of a successfully
extracted entry comes from. -/
theorem extractLines_ok_shape (ls : List String) (e : Entry)
    (h : extractLines ls = .ok e) :
    ∃ votes like_raw unlike_raw,
      ls.get? 0 = some e.author ∧
      ls.get? 2 = some e.id ∧
      ls.getLast? = some votes ∧
      (pySplit ' ' votes).get? 2 = some like_raw ∧
      (pySplit ' ' votes).get? 4 = some unlike_raw ∧
      e.text = String.join ((ls.drop 3).dropLast) ∧
      e.likeCount = stripBrackets like_raw ∧
      e.unlikeCount = stripBrackets unlike_raw := by
  cases ls with
  | nil => cases h
  | cons l0 t0 =>
    cases t0 with
    | nil => cases h
    | cons l1 t1 =>
      cases t1 with
      | nil => cases h
      | cons l2 rest =>
        simp only [extractLines] at h
        cases hv2 : (pySplit ' ' (rest.getLastD l2)).get? 2 with
        | none => rw [hv2] at h; cases h
        | some like_raw =>
          rw [hv2] at h
          cases hv4 : (pySplit ' ' (rest.getLastD l2)).get? 4 with
          | none => rw [hv4] at h; cases h
          | some unlike_raw =>
            rw [hv4] at h
            cases h
            refine ⟨rest.getLastD l2, like_raw, unlike_raw, rfl, rfl, ?_,
              hv2, hv4, rfl, rfl, rfl⟩
            rw [List.getLast?_cons_cons, List.getLast?_cons_cons,
              List.getLast?_cons, List.getLastD_eq_getLast?]

/-- Exact success condition of the extractor: at least 3 lines and at
least 5 space-separated tokens on the last line. -/
theorem extractLines_ok_iff (ls : List String) :
    (∃ e, extractLines ls = .ok e) ↔
      3 ≤ ls.length ∧ 5 ≤ (pySplit ' ' (ls.getLast?.getD "")).length := by
  constructor
  · rintro ⟨e, he⟩
    rcases extractLines_ok_shape ls e he with
      ⟨votes, like_raw, unlike_raw, h0, h2, hl, hv2, hv4, -, -, -⟩
    have hlen : 2 < ls.length := (List.get?_eq_some.mp h2).1
    have hlen4 : 4 < (pySplit ' ' votes).length := (List.get?_eq_some.mp hv4).1
    rw [hl]
    exact ⟨by omega, by simpa using hlen4⟩
  · rintro ⟨h3, h5⟩
    cases ls with
    | nil => simp at h3
    | cons l0 t0 =>
      cases t0 with
      | nil => simp at h3
      | cons l1 t1 =>
        cases t1 with
        | nil => simp at h3
        | cons l2 rest =>
          have hgl : (l0 :: l1 :: l2 :: rest).getLast? =
              some (rest.getLastD l2) := by
            rw [List.getLast?_cons_cons, List.getLast?_cons_cons,
              List.getLast?_cons, List.getLastD_eq_getLast?]
          rw [hgl] at h5
          simp only [Option.getD_some] at h5
          cases hv2' : (pySplit ' ' (rest.getLastD l2)).get? 2 with
          | none =>
            have := List.get?_eq_none.mp hv2'
            omega
          | some like_raw =>
            cases hv4' : (pySplit ' ' (rest.getLastD l2)).get? 4 with
            | none =>
              have := List.get?_eq_none.mp hv4'
              omega
            | some unlike_raw =>
              refine ⟨⟨l2, l0, String.join rest.dropLast,
                stripBrackets like_raw, stripBrackets unlike_raw⟩, ?_⟩
              simp only [extractLines]
              rw [hv2', hv4']

theorem reveal_details_ok_iff (t : String) :
    (∃ e, reveal_details t = .ok e) ↔
      3 ≤ (pySplit '\n' t).length ∧
      5 ≤ (pySplit ' ' ((pySplit '\n' t).getLast?.getD "")).length := by
  unfold reveal_details
  exact extractLines_ok_iff (pySplit '\n' t)

/-- No field of a successfully extracted entry contains a newline:
every field is built from pieces of the newline-split of the block. -/
theorem reveal_details_no_newline (b : String) (e : Entry)
    (h : reveal_details b = .ok e) :
    ∀ f ∈ entryFields e, '\n' ∉ f.data := by
  unfold reveal_details at h
  rcases extractLines_ok_shape _ e h with
    ⟨votes, like_raw, unlike_raw, h0, h2, hl, hv2, hv4, htext, hlike, hunlike⟩
  have hpieces := mem_pySplit_not_sep '\n' b
  have hauthor : '\n' ∉ e.author.data :=
    hpieces e.author (List.get?_mem h0)
  have hid : '\n' ∉ e.id.data :=
    hpieces e.id (List.get?_mem h2)
  have hvotes : '\n' ∉ votes.data :=
    hpieces votes (mem_of_getLast?_eq_some hl)
  have htok : ∀ tok ∈ pySplit ' ' votes, '\n' ∉ tok.data := by
    intro tok htokmem hc
    exact hvotes (mem_pySplit_subset ' ' votes tok htokmem '\n' hc)
  have hliker : '\n' ∉ e.likeCount.data := by
    rw [hlike]
    intro hc
    exact htok like_raw (List.get?_mem hv2) (mem_stripBrackets_subset _ '\n' hc)
  have hunliker : '\n' ∉ e.unlikeCount.data := by
    rw [hunlike]
    intro hc
    exact htok unlike_raw (List.get?_mem hv4) (mem_stripBrackets_subset _ '\n' hc)
  have htextnl : '\n' ∉ e.text.data := by
    rw [htext]
    refine string_join_not_mem _ _ ?_
    intro s hs
    exact hpieces s (List.drop_subset _ _ (List.dropLast_subset _ hs))
  intro f hf
  simp only [entryFields, List.mem_cons, List.mem_singleton] at hf
  rcases hf with rfl | rfl | rfl | rfl | rfl | hf
  · exact hid
  · exact hauthor
  · exact htextnl
  · exact hliker
  · exact hunliker
  · simp at hf

/-! ### Characterization of the crawl -/

/-- The entries successfully extracted from a block sequence, in
processing order. -/
def extractedEntries (bs : List String) : List Entry :=
  bs.filterMap (fun b => (reveal_details b).toOption)

/-- Folding `duan_dict[entry.id] = entry` over a sequence of entries. -/
def insertEntries (d : Aggregate) (es : List Entry) : Aggregate :=
  es.foldl (fun d e => dictInsert d e.id e) d

/-- The most recently processed entry with a given id, if any:
last-write-wins resolution over a processing sequence. -/
def lastWithId (k : String) (es : List Entry) : Option Entry :=
  es.reverse.find? (fun e => e.id == k)

/-- The full block sequence a crawl starting at page `cp` processes, in
processing order (page-descending, document order within a page). -/
def crawlBlocks (fetch : String → Document) (cp : Int) (n : Nat) : List String :=
  (List.range' 0 n).flatMap
    (fun (j : Nat) => (fetch (construct_url (cp - (j : Int)))).entryBlocks)

theorem dictLookup_insertEntries (es : List Entry) (d : Aggregate) (k : String) :
    dictLookup (insertEntries d es) k =
      (lastWithId k es).or (dictLookup d k) := by
  induction es generalizing d with
  | nil => simp [insertEntries, lastWithId]
  | cons e es ih =>
    simp only [insertEntries, List.foldl_cons] at ih ⊢
    rw [ih (dictInsert d e.id e)]
    simp only [lastWithId, List.reverse_cons, List.find?_append]
    rw [dictLookup_dictInsert]
    cases hfind : es.reverse.find? (fun e => e.id == k) with
    | some x => simp [Option.or]
    | none =>
      by_cases he : e.id = k
      · have hb : (e.id == k) = true := by simpa using he
        simp [Option.or, List.find?, hb, he.symm]
      · have hb : (e.id == k) = false := by simpa using he
        have hk : ¬ k = e.id := fun hh => he hh.symm
        simp [Option.or, List.find?, hb, hk]

theorem processBlocks_ok (bs : List String) (d d' : Aggregate)
    (h : processBlocks d bs = .ok d') :
    d' = insertEntries d (extractedEntries bs) := by
  induction bs generalizing d with
  | nil => cases h; rfl
  | cons b bs ih =>
    simp only [processBlocks] at h
    cases hr : reveal_details b with
    | error e => rw [hr] at h; cases h
    | ok entry =>
      rw [hr] at h
      have := ih _ h
      simpa [extractedEntries, insertEntries, hr, Except.toOption] using this

theorem lootIter_ok (fetch : String → Document) (s : String) (cp : Int)
    (hcp : pyInt? s = some cp) :
    ∀ (n i : Nat) (d d' : Aggregate) (t : List Int),
      lootIter fetch s i d n = .ok d' t →
      d' = insertEntries d (extractedEntries
            ((List.range' i n).flatMap
              (fun (j : Nat) => (fetch (construct_url (cp - (j : Int)))).entryBlocks))) ∧
      t = (List.range' i n).map (fun (j : Nat) => cp - (j : Int)) := by
  intro n
  induction n with
  | zero =>
    intro i d d' t h
    cases h
    simp [extractedEntries, insertEntries]
  | succ n ih =>
    intro i d d' t h
    simp only [lootIter, hcp] at h
    cases hpb : processBlocks d (fetch (construct_url (cp - (i : Int)))).entryBlocks with
    | error e => rw [hpb] at h; cases h
    | ok dict' =>
      simp only [hpb] at h
      cases hrec : lootIter fetch s (i + 1) dict' n with
      | err e t2 => rw [hrec] at h; cases h
      | ok d2 t2 =>
        rw [hrec] at h
        cases h
        obtain ⟨hd, ht⟩ := ih (i + 1) dict' _ _ hrec
        constructor
        · rw [hd, processBlocks_ok _ _ _ hpb]
          rw [List.range'_succ, List.flatMap_cons]
          simp only [extractedEntries, List.filterMap_append]
          rw [insertEntries, insertEntries, insertEntries, List.foldl_append]
        · rw [ht, List.range'_succ, List.map_cons]

theorem loot_ok (fetch : String → Document) (s : String) (cp : Int) (n : Nat)
    (d : Aggregate) (t : List Int)
    (hs : get_current_page fetch BASE_URL = .ok s)
    (hcp : pyInt? s = some cp)
    (h : loot fetch n = .ok d t) :
    d = insertEntries [] (extractedEntries (crawlBlocks fetch cp n)) ∧
    t = (List.range' 0 n).map (fun (j : Nat) => cp - (j : Int)) := by
  unfold loot at h
  rw [hs] at h
  exact lootIter_ok fetch s cp hcp n 0 [] d t h

/-- Generic invariant preservation: any property that holds of every
binding `(e.id, e)` produced by a successful extraction holds of every
binding of the aggregate a successful crawl returns. -/
theorem processBlocks_inv (Q : String × Entry → Prop)
    (hQ : ∀ b e, reveal_details b = .ok e → Q (e.id, e)) :
    ∀ (bs : List String) (d d' : Aggregate), (∀ p ∈ d, Q p) →
      processBlocks d bs = .ok d' → ∀ p ∈ d', Q p := by
  intro bs
  induction bs with
  | nil => intro d d' hd h; cases h; exact hd
  | cons b bs ih =>
    intro d d' hd h
    simp only [processBlocks] at h
    cases hr : reveal_details b with
    | error e => rw [hr] at h; cases h
    | ok entry =>
      rw [hr] at h
      refine ih _ _ ?_ h
      intro p hp
      rcases mem_dictInsert d entry.id entry p hp with h1 | h1
      · rw [h1]; exact hQ b entry hr
      · exact hd p h1

theorem lootIter_inv (Q : String × Entry → Prop)
    (hQ : ∀ b e, reveal_details b = .ok e → Q (e.id, e))
    (fetch : String → Document) (s : String) :
    ∀ (n i : Nat) (d d' : Aggregate) (t : List Int), (∀ p ∈ d, Q p) →
      lootIter fetch s i d n = .ok d' t → ∀ p ∈ d', Q p := by
  intro n
  induction n with
  | zero =>
    intro i d d' t hd h
    cases h
    exact hd
  | succ n ih =>
    intro i d d' t hd h
    simp only [lootIter] at h
    cases hcp : pyInt? s with
    | none => rw [hcp] at h; cases h
    | some cp =>
      simp only [hcp] at h
      cases hpb : processBlocks d (fetch (construct_url (cp - (i : Int)))).entryBlocks with
      | error e => rw [hpb] at h; cases h
      | ok dict' =>
        simp only [hpb] at h
        cases hrec : lootIter fetch s (i + 1) dict' n with
        | err e t2 => rw [hrec] at h; cases h
        | ok d2 t2 =>
          rw [hrec] at h
          cases h
          exact ih (i + 1) dict' _ _
            (processBlocks_inv Q hQ _ d dict' hd hpb) hrec

theorem loot_inv (Q : String × Entry → Prop)
    (hQ : ∀ b e, reveal_details b = .ok e → Q (e.id, e))
    (fetch : String → Document) (n : Nat) (d : Aggregate) (t : List Int)
    (h : loot fetch n = .ok d t) : ∀ p ∈ d, Q p := by
  unfold loot at h
  cases hs : get_current_page fetch BASE_URL with
  | error e => rw [hs] at h; cases h
  | ok s =>
    rw [hs] at h
    exact lootIter_inv Q hQ fetch s n 0 [] d t (by intro p hp; cases hp) h

/-- The extractor never produces the locator's error kind. -/
theorem extractLines_ne_pageLocator (ls : List String) :
    extractLines ls ≠ .error .pageLocatorError := by
  cases ls with
  | nil => intro h; cases h
  | cons l0 t0 =>
    cases t0 with
    | nil => intro h; cases h
    | cons l1 t1 =>
      cases t1 with
      | nil => intro h; cases h
      | cons l2 rest =>
        simp only [extractLines]
        cases hv2 : (pySplit ' ' (rest.getLastD l2)).get? 2 with
        | none => intro h; cases h
        | some like_raw =>
          cases hv4 : (pySplit ' ' (rest.getLastD l2)).get? 4 with
          | none => intro h; cases h
          | some unlike_raw => intro h; cases h

/-! ### Claims -/

/-- C1, counterexample: on the spec's scenario block, the extractor does
return id `123`, author `Alice`, text `Helloworld`, but its like/unlike
fields are the bracket-stripped tokens at offsets 2 and 4 of the vote
line, namely `like` and `unlike` — not `12` and `3` as the claim says. -/
theorem C1_counterexample :
    reveal_details "Alice\nmeta\n123\nHello\nworld\n[report] [tip] [like] [12] [unlike] [3]"
      = .ok ⟨"123", "Alice", "Helloworld", "like", "unlike"⟩ ∧
    (Entry.mk "123" "Alice" "Helloworld" "like" "unlike").likeCount ≠ "12" ∧
    (Entry.mk "123" "Alice" "Helloworld" "like" "unlike").unlikeCount ≠ "3" :=
  ⟨rfl, by decide, by decide⟩

/-- C1 (amended): for the RawBlock whose lines are `Alice`, `meta`, `123`,
`Hello`, `world`, `[report] [tip] [like] [12] [unlike] [3]`, extract
returns the Entry with id `123`, author `Alice`, text `Helloworld`,
likeCount `like` and unlikeCount `unlike` (the vote-line tokens at
offsets 2 and 4, brackets stripped). -/
theorem C1_extract_scenario :
    reveal_details "Alice\nmeta\n123\nHello\nworld\n[report] [tip] [like] [12] [unlike] [3]"
      = .ok { id := "123", author := "Alice", text := "Helloworld",
              likeCount := "like", unlikeCount := "unlike" } := rfl

/-- C2, counterexample: a 3-line RawBlock whose last line has 5
space-separated tokens extracts successfully, contradicting both "fewer
than 5 lines fails" and "every 3-line RawBlock fails". -/
theorem C2_counterexample :
    reveal_details "a\nb\nc d e f g"
      = .ok ⟨"c d e f g", "a", "", "e", "g"⟩ ∧
    (pySplit '\n' "a\nb\nc d e f g").length = 3 :=
  ⟨rfl, by decide⟩

/-- C2 (amended): extraction fails with an ExtractionError exactly when
the RawBlock, split on newlines, has fewer than 3 lines, or its last
line, split on single spaces, has fewer than 5 tokens; it succeeds for
every block meeting both bounds. -/
theorem C2_extract_failure_iff (t : String) :
    reveal_details t = .error .extractionError ↔
      ((pySplit '\n' t).length < 3 ∨
       (pySplit ' ' ((pySplit '\n' t).getLast?.getD "")).length < 5) := by
  constructor
  · intro h
    by_contra hc
    push_neg at hc
    obtain ⟨h3, h5⟩ := hc
    obtain ⟨e, he⟩ := (reveal_details_ok_iff t).mpr ⟨h3, h5⟩
    rw [he] at h
    cases h
  · intro h
    cases hr : reveal_details t with
    | ok e =>
      have := (reveal_details_ok_iff t).mp ⟨e, hr⟩
      omega
    | error err =>
      cases err with
      | extractionError => rfl
      | pageLocatorError =>
        exact absurd hr (extractLines_ne_pageLocator _)

/-- C3, counterexample: a 4-line RawBlock with a well-formed vote line
extracts successfully with an EMPTY text field (there are no content
lines between index 3 and the vote line). -/
theorem C3_counterexample :
    reveal_details "Ann\nmeta\n77\nt1 t2 [5] x [6]"
      = .ok ⟨"77", "Ann", "", "5", "6"⟩ ∧
    (Entry.mk "77" "Ann" "" "5" "6").text = "" :=
  ⟨rfl, rfl⟩

/-- C3 (amended): whenever extraction succeeds, the author field is set
(it equals the block's first line) and the text field equals the
separator-free join of lines 3..n-2, which may be empty; it can be
non-empty only when the block has at least 5 lines. -/
theorem C3_extract_invariants (t : String) (e : Entry)
    (h : reveal_details t = .ok e) :
    (pySplit '\n' t).get? 0 = some e.author ∧
    e.text = String.join (((pySplit '\n' t).drop 3).dropLast) ∧
    (e.text ≠ "" → 5 ≤ (pySplit '\n' t).length) := by
  obtain ⟨votes, lr, ur, h0, h2, hl, hv2, hv4, htext, -, -⟩ :=
    extractLines_ok_shape _ e h
  refine ⟨h0, htext, ?_⟩
  intro hne
  by_contra hlt
  push_neg at hlt
  have hdrop : ((pySplit '\n' t).drop 3).dropLast = [] := by
    have hlen : ((pySplit '\n' t).drop 3).length ≤ 1 := by
      rw [List.length_drop]
      omega
    cases hc : (pySplit '\n' t).drop 3 with
    | nil => rfl
    | cons a l =>
      rw [hc] at hlen
      simp at hlen
      rw [hlen]
      rfl
  rw [hdrop] at htext
  exact hne (by rw [htext]; rfl)

/-- C3 witness. -/
theorem C3_witness :
    (pySplit '\n' "Bob\nx\n9\nhi\na b [1] c [2]").get? 0
        = some (Entry.mk "9" "Bob" "hi" "1" "2").author ∧
    (Entry.mk "9" "Bob" "hi" "1" "2").text =
      String.join (((pySplit '\n' "Bob\nx\n9\nhi\na b [1] c [2]").drop 3).dropLast) ∧
    ((Entry.mk "9" "Bob" "hi" "1" "2").text ≠ "" →
      5 ≤ (pySplit '\n' "Bob\nx\n9\nhi\na b [1] c [2]").length) :=
  C3_extract_invariants "Bob\nx\n9\nhi\na b [1] c [2]" ⟨"9", "Bob", "hi", "1", "2"⟩ rfl

/-- C4, counterexample: an unrecognized format kind (`pdf`) selects the
markdown export's file name, not the text export's. -/
theorem C4_counterexample :
    send_duan_file_name "pdf" = MD_NAME ∧ MD_NAME ≠ TXT_NAME :=
  ⟨rfl, by decide⟩

/-- C4 (amended): `txt` selects the text export's file, `html` the HTML
export's file, and every other format kind falls through to the markdown
file (the `else` branch), not to the text export. -/
theorem C4_attachment_selection :
    send_duan_file_name "txt" = TXT_NAME ∧
    send_duan_file_name "html" = HTML_NAME ∧
    ∀ t : String, t ≠ "txt" → t ≠ "html" → send_duan_file_name t = MD_NAME := by
  refine ⟨rfl, rfl, ?_⟩
  intro t h1 h2
  simp [send_duan_file_name, h1, h2]

/-- C4 witness. -/
theorem C4_witness :
    ("md" : String) ≠ "txt" ∧ ("md" : String) ≠ "html" ∧
    send_duan_file_name "md" = MD_NAME :=
  ⟨by decide, by decide, C4_attachment_selection.2.2 "md" (by decide) (by decide)⟩

/-- C5: when the located current page parses to `cp` and the crawl runs
to completion, the trace of fetched pages is exactly
`[cp, cp-1, ..., cp-(n-1)]` — pages `cp - i` for `i = 0 .. n-1` in
ascending-`i` (page-descending) order. -/
theorem C5_crawl_page_order (fetch : String → Document) (s : String) (cp : Int)
    (n : Nat) (d : Aggregate) (t : List Int)
    (hs : get_current_page fetch BASE_URL = .ok s)
    (hcp : pyInt? s = some cp)
    (h : loot fetch n = .ok d t) :
    t = (List.range' 0 n).map (fun (i : Nat) => cp - (i : Int)) :=
  (loot_ok fetch s cp n d t hs hcp h).2

def fetchC5 : String → Document := fun _ => ⟨["[75]"], []⟩

/-- C5 witness: with current page 75 and page count 2 the crawl fetches
pages 75 then 74. -/
theorem C5_witness :
    get_current_page fetchC5 BASE_URL = .ok "75" ∧
    pyInt? "75" = some 75 ∧
    loot fetchC5 2 = .ok [] [75, 74] ∧
    ([75, 74] : List Int) =
      (List.range' 0 2).map (fun (i : Nat) => (75 : Int) - (i : Int)) :=
  ⟨rfl, by decide, by decide,
    C5_crawl_page_order fetchC5 "75" 75 2 [] [75, 74] rfl (by decide) (by decide)⟩

/-- C6: whenever the crawl completes successfully, the aggregate maps
each id to the LAST entry with that id in the crawl's processing order
(pages in fetch order, blocks in document order within a page):
last-write-wins, across pages and within a page alike. -/
theorem C6_last_write_wins (fetch : String → Document) (s : String) (cp : Int)
    (n : Nat) (d : Aggregate) (t : List Int)
    (hs : get_current_page fetch BASE_URL = .ok s)
    (hcp : pyInt? s = some cp)
    (h : loot fetch n = .ok d t) :
    ∀ k : String, dictLookup d k =
      lastWithId k (extractedEntries (crawlBlocks fetch cp n)) := by
  intro k
  obtain ⟨hd, -⟩ := loot_ok fetch s cp n d t hs hcp h
  rw [hd, dictLookup_insertEntries]
  rw [show dictLookup [] k = none from rfl, Option.or_none]

def fetchC6 : String → Document := fun u =>
  if u = BASE_URL then ⟨["[2]"], []⟩
  else if u = construct_url 2 then ⟨[], ["A\nm\n7\nfirst\na b [1] c [2]"]⟩
  else ⟨[], ["B\nm\n7\nsecond\na b [3] c [4]"]⟩

/-- C6 witness: id `7` appears on page 2 (processed first) and page 1
(processed later); the final aggregate holds the later entry. -/
theorem C6_witness :
    loot fetchC6 2 = .ok [("7", Entry.mk "7" "B" "second" "3" "4")] [2, 1] ∧
    dictLookup [("7", Entry.mk "7" "B" "second" "3" "4")] "7" =
      lastWithId "7" (extractedEntries (crawlBlocks fetchC6 2 2)) :=
  ⟨by decide,
    C6_last_write_wins fetchC6 "2" 2 2
      [("7", Entry.mk "7" "B" "second" "3" "4")] [2, 1]
      rfl (by decide) (by decide) "7"⟩

/-- C7: every entry in a successfully crawled aggregate (exactly the
entries the text export writes) yields a row that survives the
split-on-spaces / re-join round trip unchanged, and none of its five
record fields contains an embedded newline. -/
theorem C7_text_export_row (fetch : String → Document) (n : Nat)
    (d : Aggregate) (t : List Int) (h : loot fetch n = .ok d t) :
    ∀ p ∈ d, pyJoin ' ' (pySplit ' ' (duanRow p.2)) = duanRow p.2 ∧
      ∀ f ∈ entryFields p.2, '\n' ∉ f.data := by
  have hinv := loot_inv (fun q => ∀ f ∈ entryFields q.2, '\n' ∉ f.data)
    (fun b e he => reveal_details_no_newline b e he) fetch n d t h
  intro p hp
  exact ⟨pyJoin_pySplit ' ' (duanRow p.2), hinv p hp⟩

def fetchC7 : String → Document := fun u =>
  if u = BASE_URL then ⟨["[1]"], []⟩
  else ⟨[], ["C\nm\n5\nhey there\nq w [8] z [9]"]⟩

/-- C7 witness. -/
theorem C7_witness :
    loot fetchC7 1 = .ok [("5", Entry.mk "5" "C" "hey there" "8" "9")] [1] ∧
    (pyJoin ' ' (pySplit ' ' (duanRow (Entry.mk "5" "C" "hey there" "8" "9")))
        = duanRow (Entry.mk "5" "C" "hey there" "8" "9") ∧
      ∀ f ∈ entryFields (Entry.mk "5" "C" "hey there" "8" "9"), '\n' ∉ f.data) :=
  ⟨by decide,
    C7_text_export_row fetchC7 1 [("5", Entry.mk "5" "C" "hey there" "8" "9")] [1]
      (by decide) ("5", Entry.mk "5" "C" "hey there" "8" "9") (by simp)⟩

def fetchC8 : String → Document := fun _ => ⟨["[abc]"], []⟩

/-- C8, counterexample: with an indicator text that is unparseable as an
integer, LOCATING the current page does NOT fail — `get_current_page`
returns the stripped string `abc` successfully (the integer parse is
deferred to the crawl loop); moreover with page count 0 the crawl
completes successfully despite the unparseable indicator, so the failure
does not unconditionally abort the crawl. -/
theorem C8_counterexample :
    get_current_page fetchC8 BASE_URL = .ok "abc" ∧
    pyInt? "abc" = none ∧
    loot fetchC8 0 = .ok [] [] :=
  ⟨rfl, by decide, by decide⟩

/-- C8 (amended): if the indicator element is absent, the crawl aborts
with a PageLocatorError before any page is fetched, for every page
count; if the indicator text is unparseable as an integer, locating
succeeds (returning the raw stripped text) and the crawl aborts with a
PageLocatorError before any page is fetched whenever at least one page
is requested. -/
theorem C8_locator_failure (fetch : String → Document) (n : Nat) :
    ((fetch BASE_URL).currentPageIndicators = [] →
      loot fetch n = .err .pageLocatorError []) ∧
    (∀ s, get_current_page fetch BASE_URL = .ok s → pyInt? s = none → 1 ≤ n →
      loot fetch n = .err .pageLocatorError []) := by
  constructor
  · intro habs
    simp [loot, get_current_page, habs]
  · intro s hs hparse hn
    unfold loot
    rw [hs]
    cases n with
    | zero => omega
    | succ m => simp only [lootIter, hparse]

def fetchC8w : String → Document := fun _ => ⟨[], []⟩

/-- C8 witness: one concrete crawl per amended branch — absent indicator
with page count 3, unparseable indicator with page count 1; both abort
with an empty fetch trace. -/
theorem C8_witness :
    loot fetchC8w 3 = .err .pageLocatorError [] ∧
    loot fetchC8 1 = .err .pageLocatorError [] :=
  ⟨(C8_locator_failure fetchC8w 3).1 rfl,
    (C8_locator_failure fetchC8 1).2 "abc" rfl (by decide) (by decide)⟩

/-- C9: the crawl is a deterministic function of the fetched documents
and the page count — two runs against extensionally equal fetch
functions produce identical outcomes (hence identical key sets and
identical per-key entries). -/
theorem C9_deterministic (f g : String → Document) (n : Nat)
    (h : ∀ u, f u = g u) : loot f n = loot g n := by
  have hfg : f = g := funext h
  rw [hfg]

def fetchC9 : String → Document := fun _ => ⟨["[3]"], []⟩

/-- C9 witness. -/
theorem C9_witness :
    (∀ u, fetchC9 u = fetchC9 u) ∧ loot fetchC9 1 = loot fetchC9 1 :=
  ⟨fun _ => rfl, C9_deterministic fetchC9 fetchC9 1 (fun _ => rfl)⟩

/-- C10: in every aggregate a successful crawl returns, each key maps to
an entry whose first field (`id`) equals that key; the invariant is
established by `duan_dict[temp[0]] = temp` and preserved by every
insert/overwrite. -/
theorem C10_key_is_id (fetch : String → Document) (n : Nat)
    (d : Aggregate) (t : List Int) (h : loot fetch n = .ok d t) :
    ∀ k e, dictLookup d k = some e → e.id = k := by
  have hinv := loot_inv (fun p => p.2.id = p.1)
    (fun b e he => rfl) fetch n d t h
  intro k e hk
  unfold dictLookup at hk
  cases hf : d.find? (fun p => p.1 = k) with
  | none => rw [hf] at hk; cases hk
  | some p =>
    rw [hf] at hk
    injection hk with hk
    have hp := List.mem_of_find?_eq_some hf
    have hpk : p.1 = k := by
      have := List.find?_some hf
      simpa using this
    have hid := hinv p hp
    rw [← hk, hid, hpk]

def fetchC10 : String → Document := fun u =>
  if u = BASE_URL then ⟨["[4]"], []⟩
  else ⟨[], ["D\nm\n11\nzz\np q [7] r [8]"]⟩

/-- C10 witness. -/
theorem C10_witness :
    loot fetchC10 1 = .ok [("11", Entry.mk "11" "D" "zz" "7" "8")] [4] ∧
    dictLookup [("11", Entry.mk "11" "D" "zz" "7" "8")] "11"
        = some (Entry.mk "11" "D" "zz" "7" "8") ∧
    (Entry.mk "11" "D" "zz" "7" "8").id = "11" :=
  ⟨by decide, by decide,
    C10_key_is_id fetchC10 1 [("11", Entry.mk "11" "D" "zz" "7" "8")] [4]
      (by decide) "11" (Entry.mk "11" "D" "zz" "7" "8") (by decide)⟩

